import Mathlib

/-!
Verification development for the stagehand researcher service.

The JavaScript sources are shallowly embedded: JS strings become `String`,
JS numbers become `ℚ`, nullable values become `Option`, thrown exceptions
become `Except`, and the nondeterministic outcomes of browser and
language-model calls are threaded explicitly as environment parameters.
-/

/-- Boolean test that `pat` is a prefix of the second list. -/
def listStartsWith : List Char → List Char → Bool
  | [], _ => true
  | _ :: _, [] => false
  | a :: as, b :: bs => a = b && listStartsWith as bs

/-- Boolean test that `pat` occurs as a contiguous sublist of the second list. -/
def listIsInfix (pat : List Char) : List Char → Bool
  | [] => pat.isEmpty
  | b :: bs => listStartsWith pat (b :: bs) || listIsInfix pat bs

/-- Semantics of the JS `String.prototype.includes` call: substring test. -/
def jsIncludes (s sub : String) : Bool :=
  listIsInfix sub.toList s.toList

/-- Semantics of the JS `String.prototype.toLowerCase` call, character by
character. -/
def toLowerStr (s : String) : String :=
  String.mk (s.toList.map Char.toLower)

/-- Truthiness of a nullable JS string: `null` and the empty string are falsy. -/
def jsTruthyStr : Option String → Bool
  | none => false
  | some s => s ≠ ""

namespace ActionParser

/-- Typed action produced by `parseAction` (src/src/utils/index.js). -/
inductive Action where
  | search (query : String)
  | navigate (url : String)
  | extract (instruction : String)
  | observe (instruction : String)
  | conclude
deriving DecidableEq, Repr

/-- Suffix of the character list right after the first occurrence of `pat`
(a nonempty literal pattern), or `none` when `pat` does not occur. -/
def afterFirst (pat : List Char) : List Char → Option (List Char)
  | [] => none
  | c :: rest =>
    if listStartsWith pat (c :: rest) then some ((c :: rest).drop pat.length)
    else afterFirst pat rest

/-- Semantics of the JS regex capture in `actionText.match(/KW: (.*)/)[1]`:
the text after the first occurrence of the literal "KW: ", up to the end of
that line (the dot of the regex does not cross a newline). `none` models the
`match` returning `null`, whereupon the JS indexing throws. -/
def captureLine (kw : String) (s : String) : Option String :=
  (afterFirst (kw ++ ": ").toList s.toList).map
    (fun cs => String.mk (cs.takeWhile (fun c => c ≠ '\n')))

/-- Embedding of `parseAction` (src/src/utils/index.js lines 4-33).
Keywords are tested with `includes` in source order; for the four
argument-taking keywords a failing regex match makes the JS code throw on
`[1]`, and the surrounding try/catch turns that into `null` - hence the
`Option.map`. -/
def parseAction (actionText : String) : Option Action :=
  if jsIncludes actionText "SEARCH" then (captureLine "SEARCH" actionText).map .search
  else if jsIncludes actionText "NAVIGATE" then (captureLine "NAVIGATE" actionText).map .navigate
  else if jsIncludes actionText "EXTRACT" then (captureLine "EXTRACT" actionText).map .extract
  else if jsIncludes actionText "OBSERVE" then (captureLine "OBSERVE" actionText).map .observe
  else if jsIncludes actionText "CONCLUDE" then some .conclude
  else none

end ActionParser

namespace ResearchPipeline

/-!
Embedding of `conductResearch` in src/src/services/researchService.js
(the link-processing pipeline): URL deduplication, relevance sort, the two
link-processing passes, and the final confidence computation.
-/

/-- One Google search result; the pipeline reads only its `url`, the second
field stands for the rest of the record (title, snippet, ...). -/
structure SResult where
  url : String
  payload : String
deriving DecidableEq, Repr

/-- First-occurrence deduplication of a list of URL strings, as performed by
`new Set(searchResults.map(r => r.url))` - a JS Set iterates in first-insertion
order. -/
def firstDedup (seen : List String) : List String → List String
  | [] => []
  | u :: rest =>
    if u ∈ seen then firstDedup seen rest
    else u :: firstDedup (u :: seen) rest

/-- Embedding of the dedup step (researchService.js lines 57-58): the unique
URLs in first-occurrence order, each mapped to the first record in the
original list carrying that URL (`searchResults.find`). -/
def dedupResults (l : List SResult) : List SResult :=
  (firstDedup [] (l.map (fun r => r.url))).filterMap
    (fun u => l.find? (fun r => r.url == u))

/-- Semantics of the JS `name.toLowerCase().replace(" ", "")`: a string
`replace` with a string pattern removes only the first occurrence. -/
def removeFirstSpace : List Char → List Char
  | [] => []
  | c :: cs => if c = ' ' then cs else c :: removeFirstSpace cs

/-- Relevance score of the sort comparator (researchService.js lines 59-65). -/
def relevanceScore (name : String) (r : SResult) : ℤ :=
  if jsIncludes r.url "linkedin.com" then 2
  else if jsIncludes (toLowerStr r.url) (String.mk (removeFirstSpace (toLowerStr name).toList)) then 1
  else 0

/-- Stable insertion of a record into a score-descending list: the record goes
after every earlier record of greater or equal score, matching the stable JS
sort with comparator `bScore - aScore`. -/
def insertDesc (name : String) (r : SResult) : List SResult → List SResult
  | [] => [r]
  | x :: xs =>
    if relevanceScore name x < relevanceScore name r then r :: x :: xs
    else x :: insertDesc name r xs

/-- Stable sort of search results by descending relevance score. -/
def sortByRelevance (name : String) (l : List SResult) : List SResult :=
  l.foldr (insertDesc name) []

/-- Category of an extracted finding (the zod enum). -/
inductive FindingType where
  | profile | news | achievement | general
deriving DecidableEq, Repr

/-- Payload returned by the page-extraction collaborator for one page. -/
structure Extracted where
  content : String
  confidence : ℚ
  ftype : FindingType
deriving DecidableEq, Repr

/-- Accepted finding as pushed onto `discoveredInfo`. -/
structure Finding where
  source : String
  content : String
  ftype : FindingType
  confidence : ℚ
deriving DecidableEq, Repr

/-- Outcome of the browser collaborator at one URL: result of
`linkedIn.navigateToProfile` (may throw), the contact string produced by
`linkedIn.extractContactInfo` (never throws), result of `page.goto`
(may throw), and result of `page.extract` (may throw). -/
structure UrlEnv where
  liNav : Except String Unit
  liContact : Option String
  gotoRes : Except String Unit
  extractRes : Except String Extracted

/-- State threaded through a link-processing pass: accepted findings,
contact information, and the trace of URLs actually visited. -/
structure PassState where
  discoveredInfo : List Finding
  contactInformation : Option String
  visited : List String
deriving Repr

/-- Embedding of the body of one link-processing loop iteration of
`conductResearch` (researchService.js lines 68-117, and identically lines
148-187): visit the URL (LinkedIn profile flow or generic goto plus extract),
record contact information when found, and accept a finding only when its
content is truthy and its confidence exceeds 0.4; every thrown error is
caught and the loop continues with the next URL. The `visited` field is the
instrumentation trace of the URLs the body was run on. -/
def stepUrl (env : String → UrlEnv) (r : SResult) (st : PassState) : PassState :=
  let e := env r.url
  let st := { st with visited := st.visited ++ [r.url] }
  if jsIncludes r.url "linkedin.com/in/" then
    match e.liNav with
    | .error _ => st
    | .ok _ =>
      if jsTruthyStr e.liContact then { st with contactInformation := e.liContact }
      else st
  else
    match e.gotoRes with
    | .error _ => st
    | .ok _ =>
      match e.extractRes with
      | .error _ => st
      | .ok page =>
        if page.content ≠ "" ∧ (2 : ℚ)/5 < page.confidence then
          { st with discoveredInfo := st.discoveredInfo ++
              [⟨r.url, page.content, page.ftype, page.confidence⟩] }
        else st

/-- The pass itself: stop at the cap of 5 accepted findings, otherwise run
the body on the head URL and continue. -/
def processResults (env : String → UrlEnv) : List SResult → PassState → PassState
  | [], st => st
  | r :: rest, st =>
    if 5 ≤ st.discoveredInfo.length then st
    else processResults env rest (stepUrl env r st)

/-- Embedding of the search-then-process phase of `conductResearch`
(researchService.js lines 56-188), given the accumulated first-round search
results `sr1` and the results `sr2` the feedback-round searches would append:
dedup and sort, run the first pass, and when fewer than 3 findings were
accepted run the feedback pass over the whole accumulated list again. -/
def researchPasses (name : String) (env : String → UrlEnv)
    (sr1 sr2 : List SResult) : PassState :=
  let searchResults := sortByRelevance name (dedupResults sr1)
  let st1 := processResults env searchResults ⟨[], none, []⟩
  if st1.discoveredInfo.length < 3 then
    processResults env (searchResults ++ sr2) st1
  else st1

/-- Arithmetic mean of the accepted-finding confidences, with the rational
convention that the empty mean (0 divided by 0) is 0. -/
def meanConfidence (d : List Finding) : ℚ :=
  (d.foldl (fun acc f => acc + f.confidence) 0) / (d.length : ℚ)

/-- Embedding of the final confidence field (researchService.js line 221):
`reduce(..)/length || 0.5` returns the mean unless it is falsy; the falsy
numeric cases reachable here (0, and NaN from 0/0 on the empty list) are
exactly the cases where the rational mean is 0. -/
def finalConfidence (d : List Finding) : ℚ :=
  if meanConfidence d = 0 then 1/2 else meanConfidence d

end ResearchPipeline

namespace OrchestratorLoop

/-!
Embedding of the iterative orchestrator `conductResearch` together with
`handleNavigation` and `withRetry` from the services/researchService.js
document embedded in src/src/services/linkedInService.js (lines 495-774 of
that file). The language-model directives and the browser outcomes are
supplied as streams indexed by the loop-pass counter.
-/

/-- Error thrown by `linkedIn.navigateToProfile`: the profile-mismatch error
is distinguished by its message text in the source. -/
inductive NavErr where
  | profileMismatch
  | other (msg : String)
deriving DecidableEq, Repr

/-- Embedding of `withRetry` (lines 763-774): attempts are numbered from 1;
a success returns immediately, the error of the last attempt propagates.
`remaining` counts the attempts still allowed. -/
def withRetryAux (f : ℕ → Except NavErr Unit) (attempt : ℕ) : ℕ → Except NavErr Unit
  | 0 => f attempt
  | 1 => f attempt
  | n + 2 =>
    match f attempt with
    | .ok u => .ok u
    | .error _ => withRetryAux f (attempt + 1) (n + 1)

/-- Runs `f` with up to `maxRetries` attempts, as `withRetry(fn, maxRetries)`. -/
def withRetry (f : ℕ → Except NavErr Unit) (maxRetries : ℕ) : Except NavErr Unit :=
  withRetryAux f 1 maxRetries

/-- Status field of the record returned by `handleNavigation`. -/
inductive NavStatus where
  | navigated | skipped | failed
deriving DecidableEq, Repr

/-- Record returned by `handleNavigation`. -/
structure NavResult where
  status : NavStatus
  contactInfo : Option String
deriving DecidableEq, Repr

/-- Browser outcomes available to one `handleNavigation` call: the outcome of
each `navigateToProfile` attempt, the contact string `extractContactInfo`
produces (it never throws), and the outcome of the generic `page.goto`. -/
structure NavEnv where
  attemptOutcome : ℕ → Except NavErr Unit
  extractedContact : Option String
  gotoOutcome : Except String Unit

/-- Embedding of `handleNavigation` (lines 693-745): LinkedIn URLs go through
`withRetry(navigateToProfile)` then contact extraction; a profile-mismatch
error becomes a `skipped` result, any other error is rethrown and caught by
the outer catch as a `failed` result; non-LinkedIn URLs are a plain goto whose
error is a `failed` result. -/
def handleNavigation (url : String) (env : NavEnv) : NavResult :=
  if jsIncludes url "linkedin.com" then
    match withRetry env.attemptOutcome 3 with
    | .ok _ => { status := .navigated, contactInfo := env.extractedContact }
    | .error .profileMismatch => { status := .skipped, contactInfo := none }
    | .error (.other _) => { status := .failed, contactInfo := none }
  else
    match env.gotoOutcome with
    | .ok _ => { status := .navigated, contactInfo := none }
    | .error _ => { status := .failed, contactInfo := none }

/-- Outcomes of the collaborator calls available to one pass of the loop
body: the search results (or thrown error), the navigation environment, and
the extract and observe outcomes. -/
structure PassEnv where
  searchOutcome : Except String (List ResearchPipeline.SResult)
  navEnv : NavEnv
  extractOutcome : Except String String
  observeOutcome : Except String String

/-- Entry pushed onto `researchResults.findings` by the loop body: the
iteration number, the raw directive text, and whether the action succeeded. -/
structure LogEntry where
  iteration : ℕ
  action : String
  ok : Bool
deriving DecidableEq, Repr

/-- Mutable state of the orchestrator loop (`iteration`,
`navigationFailures`, `contactInformation`, `researchResults.findings`,
`searchResults`; `currentUrl` is declared in the source but never
reassigned). -/
structure LoopState where
  iteration : ℕ
  navigationFailures : ℕ
  contact : Option String
  findings : List LogEntry
  searchResults : List ResearchPipeline.SResult
deriving DecidableEq, Repr

/-- Initial loop state (lines 498-535). -/
def initState : LoopState :=
  { iteration := 0, navigationFailures := 0, contact := none,
    findings := [], searchResults := [] }

/-- Result of one pass through the loop body: continue looping with the new
state, or leave the loop by the `break` of the Conclude branch. -/
inductive StepOut where
  | cont (s : LoopState)
  | brk (s : LoopState)

/-- State carried by a `StepOut`. -/
def StepOut.state : StepOut → LoopState
  | .cont s => s
  | .brk s => s

/-- Embedding of one pass through the orchestrator loop body (lines 576-671):
parse the directive; an unparsable directive or a Conclude without contact
information hits `continue` before `iteration++`; Conclude with contact
information breaks; otherwise the action is dispatched inside try/catch, a
log entry is appended, and `iteration` is incremented. -/
def stepBody (decision : String) (env : PassEnv) (s : LoopState) : StepOut :=
  match ActionParser.parseAction decision with
  | none => .cont s
  | some .conclude =>
    if jsTruthyStr s.contact then .brk s else .cont s
  | some (.search _) =>
    match env.searchOutcome with
    | .ok results =>
      .cont { s with searchResults := results,
                     findings := s.findings ++ [⟨s.iteration, decision, true⟩],
                     iteration := s.iteration + 1 }
    | .error _ =>
      .cont { s with findings := s.findings ++ [⟨s.iteration, decision, false⟩],
                     iteration := s.iteration + 1 }
  | some (.navigate url) =>
    let r := handleNavigation url env.navEnv
    let contact := if jsTruthyStr r.contactInfo then r.contactInfo else s.contact
    let navFailures :=
      if r.status = .failed then s.navigationFailures + 1 else s.navigationFailures
    .cont { s with contact := contact,
                   navigationFailures := navFailures,
                   findings := s.findings ++ [⟨s.iteration, decision, true⟩],
                   iteration := s.iteration + 1 }
  | some (.extract _) =>
    match env.extractOutcome with
    | .ok _ =>
      .cont { s with findings := s.findings ++ [⟨s.iteration, decision, true⟩],
                     iteration := s.iteration + 1 }
    | .error _ =>
      .cont { s with findings := s.findings ++ [⟨s.iteration, decision, false⟩],
                     iteration := s.iteration + 1 }
  | some (.observe _) =>
    match env.observeOutcome with
    | .ok _ =>
      .cont { s with findings := s.findings ++ [⟨s.iteration, decision, true⟩],
                     iteration := s.iteration + 1 }
    | .error _ =>
      .cont { s with findings := s.findings ++ [⟨s.iteration, decision, false⟩],
                     iteration := s.iteration + 1 }

/-- How the loop was left: by the Conclude `break`, or by the `while`
condition failing (iteration ceiling of 15 reached, or 3 navigation
failures). -/
inductive ExitReason where
  | concluded | aborted
deriving DecidableEq, Repr

/-- Observation of a bounded loop run: the loop exited, or the supplied fuel
ran out with the loop still going. -/
inductive LoopOut where
  | done (reason : ExitReason) (s : LoopState)
  | fuelOut (s : LoopState)
deriving DecidableEq, Repr

/-- True when the run is still looping after the allotted fuel. -/
def LoopOut.stillRunning : LoopOut → Bool
  | .done _ _ => false
  | .fuelOut _ => true

/-- Embedding of the orchestrator `while` loop (lines 537-672), run for at
most `fuel` passes; `k` counts the completion-collaborator calls already
made, so `dirs k` is the directive obtained by pass `k` and `env k` the
browser outcomes of that pass. The loop itself has no fuel: `fuel` only
bounds how long we watch it. -/
def runLoop (dirs : ℕ → String) (env : ℕ → PassEnv) :
    ℕ → ℕ → LoopState → LoopOut
  | 0, _, s => .fuelOut s
  | fuel + 1, k, s =>
    if 15 ≤ s.iteration ∨ 3 ≤ s.navigationFailures then .done .aborted s
    else
      match stepBody (dirs k) (env k) s with
      | .cont s2 => runLoop dirs env fuel (k + 1) s2
      | .brk s2 => .done .concluded s2

end OrchestratorLoop

namespace VerifyProfile

/-!
Embedding of `verifyProfile` of the second LinkedInService document in
src/src/services/linkedInService.js (lines 327-367 of that file).
-/

/-- The target person handed to `verifyProfile`: `context` and `interests`
are optional request fields, `none` models an absent (falsy) field. -/
structure Target where
  name : String
  context : Option String
  interests : Option (List String)

/-- Page data scraped at the top of `verifyProfile`: name, headline, and the
concatenated experience text. -/
structure PageInfo where
  name : String
  headline : String
  experience : String

/-- Score contribution of the exact case-insensitive name comparison. -/
def namePoints (t : Target) (p : PageInfo) : ℚ :=
  if toLowerStr p.name = toLowerStr t.name then 40 else 0

/-- Score contribution of the context test: the JS guard
`targetPerson.context && ...` skips a missing or empty context, otherwise 30
points when the lowercased context occurs in lowercased headline++experience. -/
def contextPoints (t : Target) (p : PageInfo) : ℚ :=
  match t.context with
  | none => 0
  | some c =>
    if c ≠ "" ∧ jsIncludes (toLowerStr (p.headline ++ p.experience)) (toLowerStr c) then 30 else 0

/-- Score contribution of the interests overlap, as an optional rational:
`none` models the NaN the JS code computes for a present-but-empty interests
list (0/0 times 30), which poisons the whole score. -/
def interestsPoints (t : Target) (p : PageInfo) : Option ℚ :=
  match t.interests with
  | none => some 0
  | some l =>
    if l.isEmpty then none
    else
      let content := toLowerStr (p.headline ++ p.experience)
      let matched := l.filter (fun i => jsIncludes content (toLowerStr i))
      some (((matched.length : ℚ) / (l.length : ℚ)) * 30)

/-- Result record of `verifyProfile`; `confidence = none` models a NaN score. -/
structure VerifyResult where
  isMatch : Bool
  confidence : Option ℚ
deriving DecidableEq, Repr

/-- Embedding of `verifyProfile`: sum the three contributions (NaN
propagates), and `isMatch` holds iff the score is at least 60 (any comparison
against NaN is false). -/
def verifyProfile (t : Target) (p : PageInfo) : VerifyResult :=
  match interestsPoints t p with
  | none => { isMatch := false, confidence := none }
  | some ip =>
    let score := namePoints t p + contextPoints t p + ip
    { isMatch := decide (60 ≤ score), confidence := some score }

end VerifyProfile

namespace Server

/-!
Embedding of the POST /research handler in src/server.js (lines 215-253):
cache lookup before enqueueing.
-/

/-- Validated request profile (the zod ProfileSchema: required name, optional
context and interests). Its normalized JSON serialization is the cache key;
two profiles serialize equally iff they are equal, so the embedding keys the
cache by the profile itself. -/
structure Profile where
  name : String
  context : Option String
  interests : Option (List String)
deriving DecidableEq, Repr

/-- Opaque research result stored in the cache. -/
structure RResult where
  body : String
deriving DecidableEq, Repr

/-- Cache lookup: the LRU cache with time-to-live is abstracted as an
association list of the entries currently live (present and unexpired). -/
def cacheFind (cache : List (Profile × RResult)) (p : Profile) : Option RResult :=
  (cache.find? (fun e => e.1 == p)).map (fun e => e.2)

/-- Response of the POST /research handler: 200 with the cached result, or
202 with the id of the newly queued job. -/
inductive PostOutcome where
  | cachedHit (result : RResult)
  | enqueued (jobId : ℕ)
deriving DecidableEq, Repr

/-- Embedding of the POST /research handler: look the parsed profile up in
the results cache; on a hit return it with no queue interaction, otherwise
add a job to the queue. Returns the response and the queue after the call. -/
def postResearch (cache : List (Profile × RResult)) (queue : List Profile)
    (p : Profile) : PostOutcome × List Profile :=
  match cacheFind cache p with
  | some r => (.cachedHit r, queue)
  | none => (.enqueued queue.length, queue ++ [p])

end Server

section ClaimC6

open ActionParser

/-- C6, counterexample: the parser matches keywords as substrings, so a text
that is not one of the five keyword-prefixed directive forms is still parsed
as an action, contradicting that any other text yields none. -/
theorem C6_counterexample_substring_match :
    parseAction "DO NOT CONCLUDE" = some Action.conclude := by decide

/-- C6, amended: the three cited example parses hold; a text containing none
of the five keywords parses to none; but keyword recognition is by substring
containment (tested in the order SEARCH, NAVIGATE, EXTRACT, OBSERVE,
CONCLUDE), so a text containing CONCLUDE anywhere - and none of the other
keywords - parses to Conclude even when it is not the bare keyword form. -/
theorem C6_parseAction_amended :
    parseAction "SEARCH: alice smith" = some (Action.search "alice smith") ∧
    parseAction "CONCLUDE" = some Action.conclude ∧
    parseAction "gibberish" = none ∧
    (∀ s : String, jsIncludes s "SEARCH" = false → jsIncludes s "NAVIGATE" = false →
      jsIncludes s "EXTRACT" = false → jsIncludes s "OBSERVE" = false →
      jsIncludes s "CONCLUDE" = false → parseAction s = none) ∧
    (∀ s : String, jsIncludes s "SEARCH" = false → jsIncludes s "NAVIGATE" = false →
      jsIncludes s "EXTRACT" = false → jsIncludes s "OBSERVE" = false →
      jsIncludes s "CONCLUDE" = true → parseAction s = some Action.conclude) := by
  refine ⟨by decide, by decide, by decide, ?_, ?_⟩
  · intro s h1 h2 h3 h4 h5
    simp [parseAction, h1, h2, h3, h4, h5]
  · intro s h1 h2 h3 h4 h5
    simp [parseAction, h1, h2, h3, h4, h5]

/-- C6, witness: the none-case and the substring-conclude case of the amended
theorem evaluated at concrete texts. -/
theorem C6_parseAction_amended_witness :
    parseAction "stop researching now" = none ∧
    parseAction "I think we should CONCLUDE here" = some Action.conclude :=
  ⟨C6_parseAction_amended.2.2.2.1 "stop researching now"
      (by decide) (by decide) (by decide) (by decide) (by decide),
    C6_parseAction_amended.2.2.2.2 "I think we should CONCLUDE here"
      (by decide) (by decide) (by decide) (by decide) (by decide)⟩

end ClaimC6

section ClaimC8

open ResearchPipeline

theorem firstDedup_mem {u : String} :
    ∀ (l : List String) (seen : List String), u ∈ firstDedup seen l → u ∈ l := by
  intro l
  induction l with
  | nil => intro seen h; simp [firstDedup] at h
  | cons a rest ih =>
    intro seen h
    simp only [firstDedup] at h
    by_cases ha : a ∈ seen
    · simp [ha] at h
      exact List.mem_cons_of_mem _ (ih seen h)
    · simp [ha] at h
      rcases h with h | h
      · simp [h]
      · exact List.mem_cons_of_mem _ (ih (a :: seen) h)

theorem firstDedup_not_mem_seen {u : String} :
    ∀ (l : List String) (seen : List String), u ∈ firstDedup seen l → u ∉ seen := by
  intro l
  induction l with
  | nil => intro seen h; simp [firstDedup] at h
  | cons a rest ih =>
    intro seen h
    simp only [firstDedup] at h
    by_cases ha : a ∈ seen
    · simp [ha] at h
      exact ih seen h
    · simp [ha] at h
      rcases h with h | h
      · simpa [h] using ha
      · intro hu
        exact ih (a :: seen) h (List.mem_cons_of_mem _ hu)

theorem firstDedup_nodup :
    ∀ (l : List String) (seen : List String), (firstDedup seen l).Nodup := by
  intro l
  induction l with
  | nil => intro seen; simp [firstDedup]
  | cons a rest ih =>
    intro seen
    simp only [firstDedup]
    by_cases ha : a ∈ seen
    · simp [ha]; exact ih seen
    · simp [ha]
      refine ⟨?_, ih (a :: seen)⟩
      intro hmem
      exact firstDedup_not_mem_seen rest (a :: seen) hmem (List.mem_cons_self a seen)

theorem dedupResults_map_url (l : List SResult) :
    (dedupResults l).map (fun r => r.url) = firstDedup [] (l.map (fun r => r.url)) := by
  unfold dedupResults
  have key : ∀ us : List String, (∀ u ∈ us, u ∈ l.map (fun r => r.url)) →
      ((us.filterMap (fun u => l.find? (fun r => r.url == u))).map (fun r => r.url)) = us := by
    intro us
    induction us with
    | nil => intro _; simp
    | cons u rest ih =>
      intro hmem
      have hu : u ∈ l.map (fun r => r.url) := hmem u (List.mem_cons_self u rest)
      rcases List.mem_map.mp hu with ⟨r, hr, hru⟩
      have hsome : (l.find? (fun r => r.url == u)).isSome := by
        rw [List.find?_isSome]
        exact ⟨r, hr, by simp [hru]⟩
      rcases Option.isSome_iff_exists.mp hsome with ⟨r2, hr2⟩
      have hr2u : r2.url = u := by
        have := List.find?_some hr2
        simpa using this
      simp only [List.filterMap_cons, hr2, List.map_cons, hr2u]
      rw [ih (fun v hv => hmem v (List.mem_cons_of_mem _ hv))]
  exact key _ (fun u hu => firstDedup_mem _ _ hu)

/-- C8: deduplication of the search-result list keeps the first occurrence of
each URL - on the concrete repeated-URL input [A,B,A,C] it returns [A,B,C]
carrying the first-seen record of A; in general the output URLs are pairwise
distinct and every output record is exactly the first record of the input
with its URL. All of this is about the list before the relevance sort. -/
theorem C8_dedup_first_occurrence_wins :
    (dedupResults
        [⟨"http://a.com", "A-first"⟩, ⟨"http://b.com", "B"⟩,
         ⟨"http://a.com", "A-second"⟩, ⟨"http://c.com", "C"⟩] =
      [⟨"http://a.com", "A-first"⟩, ⟨"http://b.com", "B"⟩, ⟨"http://c.com", "C"⟩]) ∧
    (∀ l : List SResult, ((dedupResults l).map (fun r => r.url)).Nodup) ∧
    (∀ (l : List SResult) (r : SResult), r ∈ dedupResults l →
      l.find? (fun x => x.url == r.url) = some r) := by
  refine ⟨by decide, ?_, ?_⟩
  · intro l
    rw [dedupResults_map_url]
    exact firstDedup_nodup _ _
  · intro l r hr
    unfold dedupResults at hr
    rcases List.mem_filterMap.mp hr with ⟨u, _, hfind⟩
    have hru : r.url = u := by
      have := List.find?_some hfind
      simpa using this
    rw [hru]
    exact hfind

/-- C8, witness: the first-occurrence property of the theorem applied to the
concrete repeated-URL list and its first output record. -/
theorem C8_dedup_first_occurrence_wins_witness :
    ([⟨"http://a.com", "A-first"⟩, ⟨"http://b.com", "B"⟩,
      ⟨"http://a.com", "A-second"⟩,
      ⟨"http://c.com", "C"⟩] : List SResult).find?
        (fun x => x.url == ("http://a.com" : String)) =
      some ⟨"http://a.com", "A-first"⟩ :=
  C8_dedup_first_occurrence_wins.2.2
    [⟨"http://a.com", "A-first"⟩, ⟨"http://b.com", "B"⟩,
     ⟨"http://a.com", "A-second"⟩, ⟨"http://c.com", "C"⟩]
    ⟨"http://a.com", "A-first"⟩ (by decide)

end ClaimC8

section ClaimC9

open Server

/-- C9: on a cache hit for the submitted profile the POST /research handler
returns the cached result and adds nothing to the queue; on a miss it adds
the job; hence any queue growth implies the cache lookup missed. The cache
with its time-to-live is abstracted as the set of live entries at the time of
the call. -/
theorem C9_cache_hit_skips_queue :
    ∀ (cache : List (Profile × RResult)) (queue : List Profile) (p : Profile),
      (∀ r, cacheFind cache p = some r →
        postResearch cache queue p = (.cachedHit r, queue)) ∧
      (cacheFind cache p = none →
        postResearch cache queue p = (.enqueued queue.length, queue ++ [p])) ∧
      ((postResearch cache queue p).2 ≠ queue → cacheFind cache p = none) := by
  intro cache queue p
  refine ⟨?_, ?_, ?_⟩
  · intro r hr
    simp [postResearch, hr]
  · intro hmiss
    simp [postResearch, hmiss]
  · intro hgrow
    cases hfind : cacheFind cache p with
    | none => rfl
    | some r => simp [postResearch, hfind] at hgrow

/-- C9, witness: resubmitting a profile whose result is cached returns the
cached result with the queue untouched. -/
theorem C9_cache_hit_skips_queue_witness :
    postResearch [(⟨"Ada Lovelace", some "mathematician", none⟩, ⟨"cached result"⟩)]
        [] ⟨"Ada Lovelace", some "mathematician", none⟩ =
      (.cachedHit ⟨"cached result"⟩, []) :=
  (C9_cache_hit_skips_queue
      [(⟨"Ada Lovelace", some "mathematician", none⟩, ⟨"cached result"⟩)]
      [] ⟨"Ada Lovelace", some "mathematician", none⟩).1
    ⟨"cached result"⟩ (by decide)

end ClaimC9

section ClaimC5

open VerifyProfile

/-- C5: profile match scoring. With a name and a context but no interests, an
exact case-insensitive name match alone scores 40 with isMatch false, and a
name match with the context occurring in headline++experience scores 70 with
isMatch true. In general (whenever the interests list is absent or nonempty,
so that no NaN arises) the score is the name contribution (40 or 0) plus the
context contribution (30 or 0) plus the matched-interests fraction times 30,
and isMatch holds iff the score reaches 60. -/
theorem C5_verifyProfile_scoring :
    ∀ (t : Target) (p : PageInfo),
      (∀ c, t.interests = none → t.context = some c →
        toLowerStr p.name = toLowerStr t.name →
        jsIncludes (toLowerStr (p.headline ++ p.experience)) (toLowerStr c) = false →
        verifyProfile t p = ⟨false, some 40⟩) ∧
      (∀ c, t.interests = none → t.context = some c → c ≠ "" →
        toLowerStr p.name = toLowerStr t.name →
        jsIncludes (toLowerStr (p.headline ++ p.experience)) (toLowerStr c) = true →
        verifyProfile t p = ⟨true, some 70⟩) ∧
      (t.interests = none →
        verifyProfile t p =
          ⟨decide (60 ≤ namePoints t p + contextPoints t p),
            some (namePoints t p + contextPoints t p)⟩) ∧
      (∀ l, t.interests = some l → l ≠ [] →
        verifyProfile t p =
          ⟨decide (60 ≤ namePoints t p + contextPoints t p +
              ((((l.filter (fun i =>
                    jsIncludes (toLowerStr (p.headline ++ p.experience)) (toLowerStr i))).length : ℚ) /
                  (l.length : ℚ)) * 30)),
            some (namePoints t p + contextPoints t p +
              ((((l.filter (fun i =>
                    jsIncludes (toLowerStr (p.headline ++ p.experience)) (toLowerStr i))).length : ℚ) /
                  (l.length : ℚ)) * 30))⟩) := by
  intro t p
  refine ⟨?_, ?_, ?_, ?_⟩
  · intro c hi hc hname hctx
    have hnp : namePoints t p = 40 := by simp [namePoints, hname]
    have hcp : contextPoints t p = 0 := by simp [contextPoints, hc, hctx]
    simp [verifyProfile, interestsPoints, hi, hnp, hcp]
    norm_num
  · intro c hi hc hce hname hctx
    have hnp : namePoints t p = 40 := by simp [namePoints, hname]
    have hcp : contextPoints t p = 30 := by simp [contextPoints, hc, hctx, hce]
    norm_num [verifyProfile, interestsPoints, hi, hnp, hcp]
  · intro hi
    simp [verifyProfile, interestsPoints, hi]
  · intro l hl hne
    simp [verifyProfile, interestsPoints, hl, List.isEmpty_iff, hne]

/-- C5, witness: the two concrete scenarios - exact name match alone scores
40 and is not a match; adding a context hit scores 70 and is a match - plus a
nonempty-interests instance of the general formula. -/
theorem C5_verifyProfile_scoring_witness :
    verifyProfile ⟨"Alice Smith", some "acme", none⟩
        ⟨"alice smith", "plumber", "pipes"⟩ = ⟨false, some 40⟩ ∧
    verifyProfile ⟨"Alice Smith", some "acme", none⟩
        ⟨"alice smith", "engineer at ACME", "pipes"⟩ = ⟨true, some 70⟩ ∧
    verifyProfile ⟨"Alice Smith", some "acme", some ["go", "rust"]⟩
        ⟨"alice smith", "engineer at ACME", "writes go"⟩ = ⟨true, some 85⟩ := by
  refine ⟨?_, ?_, ?_⟩
  · exact (C5_verifyProfile_scoring ⟨"Alice Smith", some "acme", none⟩
      ⟨"alice smith", "plumber", "pipes"⟩).1 "acme" rfl rfl (by decide) (by decide)
  · exact (C5_verifyProfile_scoring ⟨"Alice Smith", some "acme", none⟩
      ⟨"alice smith", "engineer at ACME", "pipes"⟩).2.1 "acme" rfl rfl
      (by decide) (by decide) (by decide)
  · have h := (C5_verifyProfile_scoring ⟨"Alice Smith", some "acme", some ["go", "rust"]⟩
      ⟨"alice smith", "engineer at ACME", "writes go"⟩).2.2.2 ["go", "rust"] rfl (by decide)
    rw [h]
    have h1 : toLowerStr "alice smith" = toLowerStr "Alice Smith" := by decide
    have h2 : jsIncludes (toLowerStr ("engineer at ACME" ++ "writes go"))
        (toLowerStr "acme") = true := by decide
    have h3 : List.filter (fun i =>
        jsIncludes (toLowerStr ("engineer at ACME" ++ "writes go")) (toLowerStr i))
        ["go", "rust"] = ["go"] := by decide
    have h4 : ¬("acme" : String) = "" := by decide
    simp only [namePoints, contextPoints, h1, h2, h3, h4, if_pos,
      List.length_cons, List.length_nil]
    rw [if_pos (show ("acme" : String) ≠ "" ∧ True from ⟨h4, trivial⟩)]
    norm_num

end ClaimC5

section ClaimC10

open ResearchPipeline

theorem foldl_add_confidence (d : List Finding) :
    ∀ a : ℚ, d.foldl (fun acc f => acc + f.confidence) a =
      a + (d.map (fun f => f.confidence)).sum := by
  induction d with
  | nil => intro a; simp
  | cons f rest ih =>
    intro a
    simp only [List.foldl_cons, List.map_cons, List.sum_cons, ih]
    ring

/-- C10: the confidence of the final research result is the arithmetic mean
of the accepted-finding confidences, except that a non-positive mean - which,
given that every accepted finding carries confidence above the 0.4 threshold,
happens exactly when the accepted list is empty - is replaced by 0.5. -/
theorem C10_final_confidence_mean_or_half :
    ∀ d : List Finding, (∀ f ∈ d, (2 : ℚ)/5 < f.confidence) →
      (0 < meanConfidence d → finalConfidence d = meanConfidence d) ∧
      (¬ 0 < meanConfidence d → finalConfidence d = 1/2 ∧ d = []) := by
  intro d hconf
  cases d with
  | nil =>
    constructor
    · intro hpos
      simp [meanConfidence] at hpos
    · intro _
      constructor
      · simp [finalConfidence, meanConfidence]
      · rfl
  | cons f rest =>
    have hsum : 0 < ((f :: rest).map (fun f => f.confidence)).sum := by
      apply List.sum_pos
      · intro x hx
        rcases List.mem_map.mp hx with ⟨g, hg, hgx⟩
        have := hconf g hg
        have h04 : (0 : ℚ) < 2/5 := by norm_num
        calc (0 : ℚ) < 2/5 := h04
          _ < g.confidence := this
          _ = x := hgx
      · simp
    have hlen : (0 : ℚ) < ((f :: rest).length : ℚ) := by
      simp only [List.length_cons]
      positivity
    have hmean : 0 < meanConfidence (f :: rest) := by
      unfold meanConfidence
      rw [foldl_add_confidence]
      simpa using div_pos (by simpa using hsum) hlen
    constructor
    · intro _
      unfold finalConfidence
      rw [if_neg (ne_of_gt hmean)]
    · intro hnot
      exact absurd hmean hnot

/-- C10, witness: a singleton accepted-findings list yields its own
confidence as the mean, and the empty list yields 0.5. -/
theorem C10_final_confidence_mean_or_half_witness :
    finalConfidence [⟨"http://a.com", "bio", .profile, 9/10⟩] =
      meanConfidence [⟨"http://a.com", "bio", .profile, 9/10⟩] ∧
    finalConfidence [] = 1/2 := by
  constructor
  · exact (C10_final_confidence_mean_or_half
        [⟨"http://a.com", "bio", .profile, 9/10⟩]
        (by intro f hf; simp at hf; rw [hf]; norm_num)).1
      (by norm_num [meanConfidence])
  · exact ((C10_final_confidence_mean_or_half [] (by simp)).2 (by norm_num [meanConfidence])).1

end ClaimC10

section ClaimC7

open ResearchPipeline

theorem stepUrl_discoveredInfo (env : String → UrlEnv) (r : SResult) (st : PassState) :
    (stepUrl env r st).discoveredInfo = st.discoveredInfo ∨
    ∃ f, (stepUrl env r st).discoveredInfo = st.discoveredInfo ++ [f] ∧
      (2 : ℚ)/5 < f.confidence := by
  unfold stepUrl
  by_cases hli : jsIncludes r.url "linkedin.com/in/" = true
  · simp only [hli, if_true]
    cases (env r.url).liNav with
    | error e => left; rfl
    | ok u =>
      by_cases hc : jsTruthyStr (env r.url).liContact = true
      · simp only [hc, if_true]; left; trivial
      · simp only [hc, if_false]
        simp only [Bool.not_eq_true] at hc
        simp [hc]
  · simp only [Bool.not_eq_true] at hli
    simp only [hli, Bool.false_eq_true, if_false]
    cases (env r.url).gotoRes with
    | error e => left; rfl
    | ok u =>
      cases (env r.url).extractRes with
      | error e => left; rfl
      | ok page =>
        by_cases hp : page.content ≠ "" ∧ (2 : ℚ)/5 < page.confidence
        · simp only [if_pos hp]
          right
          exact ⟨⟨r.url, page.content, page.ftype, page.confidence⟩, rfl, hp.2⟩
        · simp only [if_neg hp]; left; trivial

theorem stepUrl_visited (env : String → UrlEnv) (r : SResult) (st : PassState) :
    (stepUrl env r st).visited = st.visited ++ [r.url] := by
  unfold stepUrl
  by_cases hli : jsIncludes r.url "linkedin.com/in/" = true
  · simp only [hli, if_true]
    cases (env r.url).liNav with
    | error e => rfl
    | ok u =>
      by_cases hc : jsTruthyStr (env r.url).liContact = true
      · simp [hc]
      · simp only [Bool.not_eq_true] at hc
        simp [hc]
  · simp only [Bool.not_eq_true] at hli
    simp only [hli, Bool.false_eq_true, if_false]
    cases (env r.url).gotoRes with
    | error e => rfl
    | ok u =>
      cases (env r.url).extractRes with
      | error e => rfl
      | ok page =>
        by_cases hp : page.content ≠ "" ∧ (2 : ℚ)/5 < page.confidence
        · simp [hp]
        · simp [hp]

theorem processResults_inv (env : String → UrlEnv) (results : List SResult) :
    ∀ st : PassState, st.discoveredInfo.length ≤ 5 →
      (∀ f ∈ st.discoveredInfo, (2 : ℚ)/5 < f.confidence) →
      (processResults env results st).discoveredInfo.length ≤ 5 ∧
        ∀ f ∈ (processResults env results st).discoveredInfo,
          (2 : ℚ)/5 < f.confidence := by
  induction results with
  | nil => intro st h1 h2; exact ⟨h1, h2⟩
  | cons r rest ih =>
    intro st h1 h2
    by_cases h5 : 5 ≤ st.discoveredInfo.length
    · simp only [processResults, if_pos h5]
      exact ⟨h1, h2⟩
    · simp only [processResults, if_neg h5]
      apply ih
      · rcases stepUrl_discoveredInfo env r st with h | ⟨f, hf, _⟩
        · rw [h]; exact h1
        · rw [hf]; simp only [List.length_append, List.length_cons, List.length_nil]
          omega
      · rcases stepUrl_discoveredInfo env r st with h | ⟨f, hf, hcf⟩
        · rw [h]; exact h2
        · rw [hf]
          intro g hg
          rcases List.mem_append.mp hg with hg2 | hg2
          · exact h2 g hg2
          · simp only [List.mem_singleton] at hg2
            rw [hg2]; exact hcf

/-- C7: every finding accepted into `discoveredInfo` has confidence strictly
above the acceptance threshold 0.4, and the accepted list never exceeds 5
entries: the invariant is preserved by processing any result list from any
state satisfying it (so it holds at every intermediate point of both passes),
and in particular the full two-pass run of `conductResearch` satisfies it. -/
theorem C7_findings_threshold_and_cap :
    (∀ (env : String → UrlEnv) (results : List SResult) (st : PassState),
      st.discoveredInfo.length ≤ 5 →
      (∀ f ∈ st.discoveredInfo, (2 : ℚ)/5 < f.confidence) →
      (processResults env results st).discoveredInfo.length ≤ 5 ∧
        ∀ f ∈ (processResults env results st).discoveredInfo,
          (2 : ℚ)/5 < f.confidence) ∧
    (∀ (name : String) (env : String → UrlEnv) (sr1 sr2 : List SResult),
      (researchPasses name env sr1 sr2).discoveredInfo.length ≤ 5 ∧
        ∀ f ∈ (researchPasses name env sr1 sr2).discoveredInfo,
          (2 : ℚ)/5 < f.confidence) := by
  refine ⟨fun env results st => processResults_inv env results st, ?_⟩
  intro name env sr1 sr2
  have h1 := processResults_inv env (sortByRelevance name (dedupResults sr1))
    ⟨[], none, []⟩ (by simp) (by simp)
  unfold researchPasses
  by_cases h3 : (processResults env (sortByRelevance name (dedupResults sr1))
      ⟨[], none, []⟩).discoveredInfo.length < 3
  · simp only [h3, if_pos]
    exact processResults_inv env _ _ h1.1 h1.2
  · simp only [h3, if_neg, if_false]
    exact h1

/-- C7, witness: the invariant applied to a concrete single-URL pass whose
extraction is accepted. -/
theorem C7_findings_threshold_and_cap_witness :
    (processResults (fun _ => ⟨Except.ok (), none, Except.ok (),
        Except.ok ⟨"found a bio", 9/10, .profile⟩⟩)
      [⟨"http://a.com", "A"⟩] ⟨[], none, []⟩).discoveredInfo.length ≤ 5 :=
  (C7_findings_threshold_and_cap.1
    (fun _ => ⟨Except.ok (), none, Except.ok (),
      Except.ok ⟨"found a bio", 9/10, .profile⟩⟩)
    [⟨"http://a.com", "A"⟩] ⟨[], none, []⟩
    (by simp) (by simp)).1

end ClaimC7

section ClaimC2

open OrchestratorLoop

theorem stepBody_brk_inv (d : String) (e : PassEnv) (s s2 : LoopState)
    (h : stepBody d e s = .brk s2) :
    s2 = s ∧ jsTruthyStr s.contact = true := by
  unfold stepBody at h
  cases hp : ActionParser.parseAction d with
  | none => rw [hp] at h; simp at h
  | some a =>
    rw [hp] at h
    cases a with
    | conclude =>
      by_cases hc : jsTruthyStr s.contact = true
      · simp only [hc, if_true] at h
        injection h with h2
        exact ⟨h2.symm, hc⟩
      · simp [hc] at h
    | search q => cases hs : e.searchOutcome <;> simp [hs] at h
    | navigate url => simp at h
    | extract i => cases hs : e.extractOutcome <;> simp [hs] at h
    | observe i => cases hs : e.observeOutcome <;> simp [hs] at h

theorem stepBody_conclude_skip (d : String) (e : PassEnv) (s : LoopState)
    (hp : ActionParser.parseAction d = some .conclude)
    (hc : jsTruthyStr s.contact = false) : stepBody d e s = .cont s := by
  unfold stepBody
  rw [hp]
  simp [hc]

theorem runLoop_concluded_contact (dirs : ℕ → String) (env : ℕ → PassEnv) :
    ∀ (fuel k : ℕ) (s s2 : LoopState),
      runLoop dirs env fuel k s = .done .concluded s2 →
      jsTruthyStr s2.contact = true := by
  intro fuel
  induction fuel with
  | zero => intro k s s2 h; simp [runLoop] at h
  | succ n ih =>
    intro k s s2 h
    unfold runLoop at h
    by_cases hcond : 15 ≤ s.iteration ∨ 3 ≤ s.navigationFailures
    · rw [if_pos hcond] at h
      simp at h
    · rw [if_neg hcond] at h
      cases hsb : stepBody (dirs k) (env k) s with
      | cont s3 => rw [hsb] at h; exact ih (k + 1) s3 s2 h
      | brk s3 =>
        rw [hsb] at h
        injection h with h1 h2
        have hinv := stepBody_brk_inv _ _ _ _ hsb
        rw [← h2, hinv.1]
        exact hinv.2

/-- C2: the orchestrator never concludes while contact information is null.
A parsed Conclude directive with null contact information is a no-op pass
that leaves the state unchanged and continues the loop; the same directive
with contact information present breaks the loop; and any run that exits in
the concluded state does so with non-null contact information. -/
theorem C2_conclude_only_with_contact :
    (∀ (d : String) (e : PassEnv) (s : LoopState),
      ActionParser.parseAction d = some .conclude → s.contact = none →
      stepBody d e s = .cont s) ∧
    (∀ (d : String) (e : PassEnv) (s : LoopState),
      ActionParser.parseAction d = some .conclude → jsTruthyStr s.contact = true →
      stepBody d e s = .brk s) ∧
    (∀ (dirs : ℕ → String) (env : ℕ → PassEnv) (fuel k : ℕ) (s s2 : LoopState),
      runLoop dirs env fuel k s = .done .concluded s2 →
      jsTruthyStr s2.contact = true) := by
  refine ⟨?_, ?_, fun dirs env => runLoop_concluded_contact dirs env⟩
  · intro d e s hp hc
    exact stepBody_conclude_skip d e s hp (by simp [jsTruthyStr, hc])
  · intro d e s hp hc
    unfold stepBody
    rw [hp]
    simp [hc]

/-- C2, witness: a Conclude directive is ignored at the initial (null
contact) state, honored once contact is present, and a concrete concluding
run ends with non-null contact. -/
theorem C2_conclude_only_with_contact_witness :
    stepBody "CONCLUDE" ⟨.ok [], ⟨fun _ => .ok (), some "ada at example dot com", .ok ()⟩,
        .ok "x", .ok "y"⟩ initState = .cont initState ∧
    stepBody "CONCLUDE" ⟨.ok [], ⟨fun _ => .ok (), some "ada at example dot com", .ok ()⟩,
        .ok "x", .ok "y"⟩ ⟨1, 0, some "found", [], []⟩ = .brk ⟨1, 0, some "found", [], []⟩ ∧
    jsTruthyStr (⟨1, 0, some "ada at example dot com",
        [⟨0, "NAVIGATE: https://linkedin.com/in/ada", true⟩], []⟩ : LoopState).contact = true := by
  refine ⟨?_, ?_, ?_⟩
  · exact C2_conclude_only_with_contact.1 "CONCLUDE" _ initState (by decide) rfl
  · exact C2_conclude_only_with_contact.2.1 "CONCLUDE" _ ⟨1, 0, some "found", [], []⟩
      (by decide) (by decide)
  · exact C2_conclude_only_with_contact.2.2
      (fun k => if k = 0 then "NAVIGATE: https://linkedin.com/in/ada" else "CONCLUDE")
      (fun _ => ⟨.ok [], ⟨fun _ => .ok (), some "ada at example dot com", .ok ()⟩,
        .ok "x", .ok "y"⟩)
      5 0 initState
      ⟨1, 0, some "ada at example dot com",
        [⟨0, "NAVIGATE: https://linkedin.com/in/ada", true⟩], []⟩
      (by decide)

end ClaimC2

section ClaimC4

open OrchestratorLoop

/-- C4: a recognized-profile navigation that finds a non-matching profile
yields a skip outcome, not a failure - the mismatch error thrown by every
`navigateToProfile` attempt surfaces from `withRetry` and is converted to the
skipped status - and the navigation-failure counter of a navigate pass is
incremented exactly when the navigation outcome has status failed. -/
theorem C4_mismatch_is_skip_not_failure :
    (∀ (url : String) (ne : NavEnv),
      jsIncludes url "linkedin.com" = true →
      (∀ n, ne.attemptOutcome n = .error .profileMismatch) →
      handleNavigation url ne = ⟨.skipped, none⟩) ∧
    (∀ (d : String) (e : PassEnv) (s : LoopState) (url : String),
      ActionParser.parseAction d = some (.navigate url) →
      (stepBody d e s).state.navigationFailures =
        (if (handleNavigation url e.navEnv).status = .failed
          then s.navigationFailures + 1 else s.navigationFailures)) := by
  constructor
  · intro url ne hurl hmis
    unfold handleNavigation
    rw [if_pos hurl]
    unfold withRetry withRetryAux
    rw [hmis 1]
    unfold withRetryAux
    rw [hmis 2]
    unfold withRetryAux
    rw [hmis 3]
  · intro d e s url hp
    unfold stepBody
    rw [hp]
    simp [StepOut.state]

/-- C4, witness: a concrete all-mismatch LinkedIn navigation is skipped, and
the corresponding navigate pass leaves the failure counter at 0. -/
theorem C4_mismatch_is_skip_not_failure_witness :
    handleNavigation "https://linkedin.com/in/bob"
        ⟨fun _ => .error .profileMismatch, none, .ok ()⟩ = ⟨.skipped, none⟩ ∧
    (stepBody "NAVIGATE: https://linkedin.com/in/bob"
        ⟨.ok [], ⟨fun _ => .error .profileMismatch, none, .ok ()⟩, .ok "x", .ok "y"⟩
        initState).state.navigationFailures = initState.navigationFailures := by
  constructor
  · exact C4_mismatch_is_skip_not_failure.1 "https://linkedin.com/in/bob"
      ⟨fun _ => .error .profileMismatch, none, .ok ()⟩ (by decide) (fun n => rfl)
  · rw [C4_mismatch_is_skip_not_failure.2 "NAVIGATE: https://linkedin.com/in/bob"
      ⟨.ok [], ⟨fun _ => .error .profileMismatch, none, .ok ()⟩, .ok "x", .ok "y"⟩
      initState "https://linkedin.com/in/bob" (by decide)]
    decide

end ClaimC4

section ClaimC1

open OrchestratorLoop

theorem stepBody_unparsable (d : String) (e : PassEnv) (s : LoopState)
    (hp : ActionParser.parseAction d = none) : stepBody d e s = .cont s := by
  unfold stepBody
  rw [hp]

/-- C1: the orchestrator loop does not always terminate. The `continue`
branches for an unparsable directive and for a premature Conclude skip the
`iteration++` at the bottom of the loop body, so when the completion
collaborator keeps answering an unparsable text - or keeps answering CONCLUDE
while contact information is still null - neither the iteration counter nor
the navigation-failure counter ever advances and the loop is still running
after any number of passes. -/
theorem C1_loop_can_run_forever :
    (∀ (env : ℕ → PassEnv) (fuel k : ℕ),
      (runLoop (fun _ => "gibberish") env fuel k initState).stillRunning = true) ∧
    (∀ (env : ℕ → PassEnv) (fuel k : ℕ),
      (runLoop (fun _ => "CONCLUDE") env fuel k initState).stillRunning = true) := by
  constructor
  · intro env fuel
    induction fuel with
    | zero => intro k; rfl
    | succ n ih =>
      intro k
      unfold runLoop
      rw [if_neg (by decide : ¬(15 ≤ initState.iteration ∨ 3 ≤ initState.navigationFailures))]
      rw [stepBody_unparsable _ _ _ (by decide)]
      exact ih (k + 1)
  · intro env fuel
    induction fuel with
    | zero => intro k; rfl
    | succ n ih =>
      intro k
      unfold runLoop
      rw [if_neg (by decide : ¬(15 ≤ initState.iteration ∨ 3 ≤ initState.navigationFailures))]
      rw [stepBody_conclude_skip "CONCLUDE" (env k) initState (by decide) rfl]
      exact ih (k + 1)

end ClaimC1

section ClaimC3

open ResearchPipeline

theorem insertDesc_perm (name : String) (r : SResult) :
    ∀ l : List SResult, (insertDesc name r l).Perm (r :: l) := by
  intro l
  induction l with
  | nil => exact List.Perm.refl _
  | cons x xs ih =>
    unfold insertDesc
    by_cases hlt : relevanceScore name x < relevanceScore name r
    · rw [if_pos hlt]
    · rw [if_neg hlt]
      exact (ih.cons x).trans (List.Perm.swap r x xs)

theorem sortByRelevance_perm (name : String) :
    ∀ l : List SResult, (sortByRelevance name l).Perm l := by
  intro l
  induction l with
  | nil => exact List.Perm.refl _
  | cons a l ih =>
    have h1 : sortByRelevance name (a :: l) = insertDesc name a (sortByRelevance name l) := rfl
    rw [h1]
    exact (insertDesc_perm name a _).trans (ih.cons a)

theorem processResults_visited_take (env : String → UrlEnv) :
    ∀ (results : List SResult) (st : PassState), ∃ k,
      (processResults env results st).visited =
        st.visited ++ (results.map (fun r => r.url)).take k := by
  intro results
  induction results with
  | nil => intro st; exact ⟨0, by simp [processResults]⟩
  | cons r rest ih =>
    intro st
    by_cases h5 : 5 ≤ st.discoveredInfo.length
    · exact ⟨0, by simp [processResults, h5]⟩
    · rcases ih (stepUrl env r st) with ⟨k, hk⟩
      refine ⟨k + 1, ?_⟩
      simp only [processResults, if_neg h5]
      rw [hk, stepUrl_visited]
      simp [List.take_succ_cons]

/-- C3, counterexample: with one accumulated search result whose extraction
is rejected (empty content), the first pass visits the URL once, fewer than 3
findings are accepted, and the feedback round iterates the same accumulated
list again, so the very same URL is navigated to and extracted from a second
time within one job. -/
theorem C3_counterexample_feedback_revisits :
    (researchPasses "Ann"
        (fun _ => ⟨Except.ok (), none, Except.ok (), Except.ok ⟨"", 0, .general⟩⟩)
        [⟨"http://a.com", "A"⟩] []).visited =
      ["http://a.com", "http://a.com"] := by decide

/-- C3, amended: within the first processing pass no URL is processed twice,
because the pass runs over the deduplicated (and relevance-sorted) result
list, whose URLs are pairwise distinct; the code keeps no visited-URL set,
and the feedback round re-iterates the whole accumulated list, so across the
two passes a URL can be processed again. -/
theorem C3_first_pass_visits_each_url_once :
    ∀ (name : String) (env : String → UrlEnv) (sr1 : List SResult),
      (processResults env (sortByRelevance name (dedupResults sr1))
        ⟨[], none, []⟩).visited.Nodup := by
  intro name env sr1
  rcases processResults_visited_take env (sortByRelevance name (dedupResults sr1))
    ⟨[], none, []⟩ with ⟨k, hk⟩
  rw [hk]
  simp only [List.nil_append]
  apply List.Nodup.sublist (List.take_sublist _ _)
  have hperm : ((sortByRelevance name (dedupResults sr1)).map (fun r => r.url)).Perm
      ((dedupResults sr1).map (fun r => r.url)) :=
    (sortByRelevance_perm name (dedupResults sr1)).map _
  apply hperm.nodup_iff.mpr
  rw [dedupResults_map_url]
  exact firstDedup_nodup _ _

end ClaimC3
